import Mathlib

/-!
Verification of the hierarchical state-graph execution engine of
`langgraph_text_writer` against its natural-language specification.

The repository wires cooperating LLM workers into supervised teams
(`src/text_writer/agents.py`) on top of a set of tool capabilities
(`src/text_writer/tools.py`).  Pure data and control structure of that code
is embedded shallowly below: message lists, per-field reducers, the concrete
graphs (nodes, unconditional edges, conditional-edge mappings), the document
store tools, and the composition adapters.  External effects (LLM calls,
web fetches, the file system) are passed in as explicit function arguments
or explicit lists, so every definition is executable.

The graph *executor* and the graph *compiler* are the langgraph library,
whose source is not part of the repository; those two are modelled from the
specification's own algorithm (doc comments on `executeFrom` and `compile`
say so explicitly).  Everything else is translated from the repository
source.
-/

namespace TextWriter

/-- A chat message as used by the state schemas: an optional author name
(worker attribution) and a text content.  Mirrors the
`langchain_core.messages.BaseMessage` data the code stores in `messages`. -/
structure BaseMessage where
  author : Option String
  content : String
deriving DecidableEq, Repr

/-- Construction `HumanMessage(content=...)` from `agents.py`: a message with
no worker attribution. -/
def HumanMessage (content : String) : BaseMessage :=
  { author := none, content := content }

/-! ## State schemas (`agents.py` lines 15-23, 102-110, 213-215)

The three `TypedDict` state declarations are embedded twice: once as Lean
structures (for executable state passing) and once as declarative
field-descriptor tables mirroring the `Annotated` declarations, so that
claims about the *declared* field types and reducers can be stated. -/

/-- Field value shape declared for a state field in a `TypedDict` schema. -/
inductive FieldShape where
  /-- a `List[BaseMessage]` field -/
  | msgList : FieldShape
  /-- a `List[str]` field -/
  | strList : FieldShape
  /-- a plain `str` field -/
  | str : FieldShape
deriving DecidableEq, Repr

/-- Reducer declared for a state field: `append` when the field is annotated
with `operator.add`, `replace` (wholesale overwrite by a partial update)
when the field carries no reducer annotation. -/
inductive FieldReducer where
  | append : FieldReducer
  | replace : FieldReducer
deriving DecidableEq, Repr

/-- One field declaration of a state schema. -/
structure FieldDecl where
  name : String
  shape : FieldShape
  reducer : FieldReducer
deriving DecidableEq, Repr

/-- Field table of `GenerationTeamState` (`agents.py` lines 15-23):
`messages : Annotated[List[BaseMessage], operator.add]`,
`team_members : List[str]`, `next : str`. -/
def GenerationTeamFields : List FieldDecl :=
  [ { name := "messages", shape := .msgList, reducer := .append },
    { name := "team_members", shape := .strList, reducer := .replace },
    { name := "next", shape := .str, reducer := .replace } ]

/-- Field table of `DocWritingState` (`agents.py` lines 102-110):
`messages : Annotated[List[BaseMessage], operator.add]`,
`team_members : str`, `next : str`, `current_files : str`. -/
def DocWritingFields : List FieldDecl :=
  [ { name := "messages", shape := .msgList, reducer := .append },
    { name := "team_members", shape := .str, reducer := .replace },
    { name := "next", shape := .str, reducer := .replace },
    { name := "current_files", shape := .str, reducer := .replace } ]

/-- Field table of the top-level `State` (`agents.py` lines 213-215):
`messages : Annotated[List[BaseMessage], operator.add]`, `next : str`. -/
def TopLevelFields : List FieldDecl :=
  [ { name := "messages", shape := .msgList, reducer := .append },
    { name := "next", shape := .str, reducer := .replace } ]

/-- Looks up the declaration of a field in a schema's field table. -/
def findField (fields : List FieldDecl) (n : String) : Option FieldDecl :=
  fields.find? (fun d => d.name = n)

/-- The reducer of the `messages` field, `operator.add` on Python lists:
list concatenation (`agents.py` line 17, 104, 214). -/
def messagesReducer (old new : List BaseMessage) : List BaseMessage :=
  old ++ new

/-- Applies an ordered sequence of partial updates to the `messages` field,
merging each via its declared reducer. -/
def applyMessageUpdates (init : List BaseMessage)
    (updates : List (List BaseMessage)) : List BaseMessage :=
  updates.foldl messagesReducer init

/-- Executable counterpart of `DocWritingState` (`agents.py` lines 102-110).
Note `team_members` is declared `str` in the source, hence `String` here. -/
structure DocWritingState where
  messages : List BaseMessage
  team_members : String
  next : String
  current_files : String
deriving DecidableEq, Repr

/-- The header line `prelude` places before the file listing
(`agents.py` line 126). -/
def currentFilesHeader : String :=
  "\nBelow are files your team has written to the directory:\n"

/-- The `prelude` pre-processing hook (`agents.py` lines 112-128).  The
directory listing (`WORKING_DIRECTORY.rglob`) is passed in explicitly as
the list of relative paths; an empty listing (including the case where the
listing raised and the `except` branch left it empty) yields the
"No files written." text, otherwise the header plus one " - path" line
per file.  All other fields are spread through unchanged (`{**state, ...}`). -/
def prelude (written_files : List String) (state : DocWritingState) :
    DocWritingState :=
  if written_files.isEmpty then
    { state with current_files := "No files written." }
  else
    { state with current_files :=
        currentFilesHeader ++
          String.intercalate "\n" (written_files.map (fun f => " - " ++ f)) }

/-- Seed construction of the authoring team, `enter_chain` at
`agents.py` lines 190-195: the seed message becomes the single message and
the member names are joined with ", " into the `team_members` string. -/
def enter_chain_authoring (message : String) (members : List String) :
    DocWritingState :=
  { messages := [HumanMessage message],
    team_members := String.intercalate ", " members,
    next := "",
    current_files := "" }

/-! ## Top-level state and the composition adapter
(`agents.py` lines 89-95, 213-231) -/

/-- Executable counterpart of the top-level `State`
(`agents.py` lines 213-215). -/
structure State where
  messages : List BaseMessage
  next : String
deriving DecidableEq, Repr

/-- Function `get_last_message` (`agents.py` lines 218-219): the content of
the last message of the outer state.  Python `state["messages"][-1]` raises
on an empty list, modelled by `Option`. -/
def get_last_message (state : State) : Option String :=
  state.messages.getLast?.map (fun m => m.content)

/-- Function `join_graph` (`agents.py` lines 222-223): projects an inner
terminal message list out as a partial update holding exactly the inner
run's last message.  Python `response["messages"][-1]` raises on an empty
list, modelled by `Option`. -/
def join_graph (response_messages : List BaseMessage) :
    Option (List BaseMessage) :=
  response_messages.getLast?.map (fun m => [m])

/-- Seed construction of the research team, `enter_chain` at
`agents.py` lines 89-93: the seed string becomes the single
`HumanMessage` of the inner `messages` field. -/
def enter_chain (message : String) : List BaseMessage :=
  [HumanMessage message]

/-- A mounted team node such as `get_last_message | research_chain |
join_graph` (`agents.py` lines 229-231).  The compiled inner chain is the
function `run_chain` from the inner seed messages to the inner terminal
messages; the adapter projects in via `get_last_message` and `enter_chain`,
runs the chain, and projects out via `join_graph`. -/
def team_node (run_chain : List BaseMessage → List BaseMessage)
    (state : State) : Option (List BaseMessage) :=
  (get_last_message state).bind
    (fun content => join_graph (run_chain (enter_chain content)))

/-! ## Document store tools (`tools.py`)

File contents are passed in explicitly as the line list that Python's
`file.readlines()` would return; the tools below are the pure part of the
source functions, returning the message and (where the tool writes) the new
file content. -/

/-- Python list slicing `xs[start:stop]` for a non-negative start and an
optional stop (`None` meaning the end of the list). -/
def pySlice (xs : List String) (start : Nat) (stop : Option Nat) :
    List String :=
  (xs.take (stop.getD xs.length)).drop start

/-- Tool `read_document` (`tools.py` lines 70-81), translated as written:
after reading the lines, the source runs `if start is not None: start = 0`,
so a supplied start offset is reset to `0` before the slice, and the sliced
lines are joined with a newline. -/
def read_document (lines : List String) (start : Option Nat)
    (stop : Option Nat) : String :=
  let start := if start.isSome then some 0 else start
  String.intercalate "\n" (pySlice lines (start.getD 0) stop)

/-- What the spec's interface `read(name, optional line range) → text`
says `read_document` should return: the text of exactly the lines in
`[start, stop)`, honouring the supplied start offset. -/
def read_document_spec (lines : List String) (start : Option Nat)
    (stop : Option Nat) : String :=
  String.intercalate "\n" (pySlice lines (start.getD 0) stop)

/-- The insertion loop of `edit_document` (`tools.py` lines 110-114): the
pairs are processed in order; a 1-indexed line number within
`[1, current length + 1]` inserts its text (with a trailing newline) at
that position, any other line number aborts with that number. -/
def insertLoop (lines : List String) :
    List (Nat × String) → Except Nat (List String)
  | [] => .ok lines
  | (line_number, text) :: rest =>
      if 1 ≤ line_number ∧ line_number ≤ lines.length + 1 then
        insertLoop (lines.insertIdx (line_number - 1) (text ++ "\n")) rest
      else
        .error line_number

/-- Tool `edit_document` (`tools.py` lines 95-119): sorts the insertion map
into ascending line-number order, runs the insertion loop, and either
returns the out-of-range error message with the file unchanged (the write
happens only after the loop), or writes the new lines and reports success
naming the file.  The result pairs the returned message with the file's
content after the call. -/
def edit_document (file_name : String) (fileLines : List String)
    (inserts : List (Nat × String)) : String × List String :=
  let sorted_inserts := inserts.mergeSort (fun a b => a.1 ≤ b.1)
  match insertLoop fileLines sorted_inserts with
  | .error line_number =>
      ("Error: Line number " ++ toString line_number ++ " is out of range.",
        fileLines)
  | .ok newLines =>
      ("Document edited and saved to " ++ file_name, newLines)

/-! ## Web tools (`tools.py` lines 25-56, 244-286)

The external effects — `WebBaseLoader(urls).load()` and the Selenium fetch
of the translated text — are passed in as explicit fallible functions
(`Except String` models a raised exception); the tool bodies below are the
source's own control flow around them. -/

/-- A loaded document: the `title` metadata entry and the page content. -/
structure Doc where
  title : String
  page_content : String
deriving DecidableEq, Repr

/-- The per-document markup `scrape_webpages` builds
(`tools.py` line 41). -/
def docTag (d : Doc) : String :=
  "<Document name=\x22" ++ d.title ++ "\x22>\n" ++ d.page_content ++
    "\n</Document>"

/-- Tool `scrape_webpages` (`tools.py` lines 25-44).  `urls` is
`Union[str, List[str]]`, modelled as a sum; `load` is
`WebBaseLoader(...).load()`.  The string branch calls `json.loads`, but
`tools.py` (and the `auth` star-import it opens with) never imports
`json`, so in the source that branch raises an uncaught `NameError`
before any decoding can happen — it is a dead error path, modelled as
the propagated `NameError`.  The list branch runs the loader and formats
each document with `docTag`; the source wraps none of this in
`try`/`except`, so a loader failure propagates as the error it raised. -/
def scrape_webpages (load : List String → Except String (List Doc))
    (urls : String ⊕ List String) : Except String String :=
  match urls with
  | .inl _ => .error "NameError: name 'json' is not defined"
  | .inr xs =>
      match load xs with
      | .error e => .error e
      | .ok docs =>
          .ok (String.intercalate "\n\n" (docs.map docTag))

/-- Tool `google_translate` (`tools.py` lines 244-286).  The driver
construction (`webdriver.Chrome(service=Service(ChromeDriverManager()
.install()), ...)`, `execute_script`, `execute_cdp_cmd`, lines 260-266)
runs *before* the `try` at line 268, so a failure there — `mkDriver`
returning an error — propagates uncaught.  Only the page interaction
(`fetch`, using the built driver) sits inside the
`try`/`except Exception`, which converts its failure into the returned
error-description string. -/
def google_translate {δ : Type} (mkDriver : Except String δ)
    (fetch : δ → String → Except String String) (text : String) :
    Except String String :=
  match mkDriver with
  | .error e => .error e
  | .ok driver =>
      match fetch driver text with
      | .ok translated => .ok ("Translated text: " ++ translated)
      | .error e =>
          .ok ("An error occurred during translation with google: " ++ e)

/-! ## Graph structure (`agents.py` lines 64-87, 165-199, 226-249)

The three `StateGraph` builds are embedded as explicit node/edge data.
`START` and `END` are langgraph's sentinels. -/

/-- The terminal sentinel `END`. -/
def END : String := "__end__"

/-- The entry sentinel `START`. -/
def START : String := "__start__"

/-- A built (pre-compile) graph: registered node names, unconditional
edges, and conditional edges (source paired with its key-to-target
mapping). -/
structure GraphSpec where
  nodes : List String
  edges : List (String × String)
  cond_edges : List (String × List (String × String))
deriving DecidableEq, Repr

/-- The research team graph (`agents.py` lines 64-87): five nodes, one
unconditional edge from each worker to the supervisor, the `START` edge,
and the supervisor's conditional mapping. -/
def research_graph : GraphSpec :=
  { nodes := ["WebScraper", "Search", "ReferencesScraper", "Translator",
      "supervisor"],
    edges := [("WebScraper", "supervisor"), ("Search", "supervisor"),
      ("ReferencesScraper", "supervisor"), ("Translator", "supervisor"),
      (START, "supervisor")],
    cond_edges := [("supervisor",
      [("WebScraper", "WebScraper"), ("Search", "Search"),
       ("ReferencesScraper", "ReferencesScraper"),
       ("Translator", "Translator"), ("FINISH", END)])] }

/-- The authoring team graph (`agents.py` lines 165-187). -/
def authoring_graph : GraphSpec :=
  { nodes := ["DocWriter", "NoteTaker", "supervisor"],
    edges := [("DocWriter", "supervisor"), ("NoteTaker", "supervisor"),
      (START, "supervisor")],
    cond_edges := [("supervisor",
      [("DocWriter", "DocWriter"), ("NoteTaker", "NoteTaker"),
       ("FINISH", END)])] }

/-- The top-level graph (`agents.py` lines 226-249). -/
def super_graph : GraphSpec :=
  { nodes := ["ResearchTeam", "PaperWritingTeam", "supervisor"],
    edges := [("ResearchTeam", "supervisor"),
      ("PaperWritingTeam", "supervisor"), (START, "supervisor")],
    cond_edges := [("supervisor",
      [("PaperWritingTeam", "PaperWritingTeam"),
       ("ResearchTeam", "ResearchTeam"), ("FINISH", END)])] }

/-- Every destination a graph's edge table mentions: unconditional edge
targets and all values of the conditional mappings. -/
def edgeTargets (g : GraphSpec) : List String :=
  g.edges.map (fun e => e.2) ++
    g.cond_edges.flatMap (fun ce => ce.2.map (fun kv => kv.2))

/-- A destination resolves when it is the terminal sentinel or a
registered node. -/
def resolves (g : GraphSpec) (t : String) : Bool :=
  t = END || g.nodes.contains t

/-- Structural compile failures of §4.1 of the spec. -/
inductive CompileError where
  | duplicateName : CompileError
  | missingEntry : CompileError
  | danglingEdge : CompileError
deriving DecidableEq, Repr

/-- Modelled from the spec: the langgraph `StateGraph.compile()` validation
is library code absent from the repository; §4.1 specifies it enforces
unique node names, an entry point, and that every edge target is a known
node or the terminal sentinel, failing with a structural `CompileError` on
any violation before execution starts, and otherwise freezing the graph. -/
def compile (g : GraphSpec) : Except CompileError GraphSpec :=
  if ¬ g.nodes.Nodup then .error .duplicateName
  else if ¬ g.edges.any (fun e => e.1 = START) then .error .missingEntry
  else if ¬ (edgeTargets g).all (fun t => resolves g t) then
    .error .danglingEdge
  else .ok g

/-- The worker nodes of a graph: every registered node other than the
supervisor. -/
def workers (g : GraphSpec) : List String :=
  g.nodes.filter (fun n => n ≠ "supervisor")

/-- All destinations reachable from a given node in one hop: its
unconditional edge targets plus every value of its conditional mappings. -/
def outTargets (g : GraphSpec) (n : String) : List String :=
  (g.edges.filter (fun e => e.1 = n)).map (fun e => e.2) ++
    (g.cond_edges.filter (fun ce => ce.1 = n)).flatMap
      (fun ce => ce.2.map (fun kv => kv.2))

/-- The supervised-star shape: every worker's outgoing edge list is exactly
the single unconditional edge to the supervisor. -/
def starTopology (g : GraphSpec) : Bool :=
  (workers g).all (fun w => outTargets g w = ["supervisor"])

/-! ## Executor (spec §4.2; driven at `agents.py` lines 251-278)

The langgraph executor behind `super_graph.stream(..., {"recursion_limit":
150})` is library code absent from the repository; it is modelled from the
spec's per-hop algorithm.  One hop — invoke the current node, merge the
partial update, resolve the next node via the already-merged state — is the
total function `step`; `END` is the terminal sentinel. -/

/-- Outcome of an execution: normal termination at the terminal sentinel
with the final state, or the step-budget failure. -/
inductive ExecResult (σ : Type) where
  | done : σ → ExecResult σ
  | recursionLimitExceeded : σ → ExecResult σ
deriving DecidableEq, Repr

/-- Modelled from the spec: the executor loop of §4.2, absent from the
repository (it is the langgraph library).  Per hop: if the current node is
the terminal sentinel, stop successfully; otherwise invoke the node and
resolve the next hop (`step`), increment the step counter, and if it now
exceeds `limit`, fail with `recursionLimitExceeded`; otherwise advance. -/
def executeFrom {σ : Type} (step : String → σ → String × σ) (limit : Nat)
    (node : String) (s : σ) (counter : Nat) : ExecResult σ :=
  if node = END then .done s
  else
    let r := step node s
    if limit < counter + 1 then .recursionLimitExceeded r.2
    else executeFrom step limit r.1 r.2 (counter + 1)
termination_by limit + 1 - counter
decreasing_by omega

/-- Modelled from the spec: a full run starts at the entry node with the
step counter at zero (§4.2, §6 run entry point). -/
def execute {σ : Type} (step : String → σ → String × σ) (limit : Nat)
    (entry : String) (s : σ) : ExecResult σ :=
  executeFrom step limit entry s 0

/-- Whether the hop sequence starting at `node` reaches the terminal
sentinel within `n` hops.  This is the executor-independent yardstick the
step-budget claim is measured against. -/
def reachesWithin {σ : Type} (step : String → σ → String × σ) :
    String → σ → Nat → Bool
  | node, _, 0 => node = END
  | node, s, n + 1 =>
      node = END || reachesWithin step (step node s).1 (step node s).2 n

/-- The recursion limit the repository's top-level run configures
(`agents.py` line 275: `{"recursion_limit": 150}`). -/
def top_level_recursion_limit : Nat := 150

/-! ## Specification-side yardsticks for `edit_document` -/

/-- The 1-indexed line number of the i-th insertion pair of a list. -/
def keyAt (ps : List (Nat × String)) (i : Nat) : Nat :=
  (ps.getD i (0, "")).1

/-- The i-th insertion (0-indexed, in processing order) of a file that
started with `n0` lines is in range when its line number lies in
`[1, n0 + i + 1]`: each successful earlier insertion has grown the file by
exactly one line, so at the moment insertion `i` is processed the file has
`n0 + i` lines. -/
def okAt (n0 : Nat) (ps : List (Nat × String)) (i : Nat) : Prop :=
  1 ≤ keyAt ps i ∧ keyAt ps i ≤ n0 + i + 1

instance (n0 ps i) : Decidable (okAt n0 ps i) := by
  unfold okAt; infer_instance

/-- Inserting every pair in order: each text (with its trailing newline) is
placed at its 1-indexed line number of the file as it stands. -/
def applyInserts (lines : List String) (ps : List (Nat × String)) :
    List String :=
  ps.foldl (fun ls p => ls.insertIdx (p.1 - 1) (p.2 ++ "\n")) lines

/-! ## Theorems -/

/-- C7: the `messages` field's reducer is list append (`operator.add`):
applying the ordered partial updates `[append A, append B]` to an initial
state with `messages = []` yields `messages = [A, B]`, for every pair of
appended messages; the merge is a pure function of the accumulated value
and the update, hence deterministic across invocations. -/
theorem messages_reducer_append_pair (A B : BaseMessage) :
    applyMessageUpdates [] [[A], [B]] = [A, B] := by
  simp [applyMessageUpdates, messagesReducer]

/-- C9: `prelude` returns the state with all fields other than
`current_files` unchanged, and sets `current_files` to "No files written."
exactly when the directory listing is empty, and otherwise to the header
followed by one " - path" line per listed file. -/
theorem prelude_frame_and_listing (files : List String)
    (s : DocWritingState) :
    (prelude files s).messages = s.messages ∧
    (prelude files s).team_members = s.team_members ∧
    (prelude files s).next = s.next ∧
    (prelude files s).current_files =
      (if files.isEmpty then "No files written."
       else currentFilesHeader ++
         String.intercalate "\n" (files.map (fun f => " - " ++ f))) := by
  unfold prelude
  by_cases h : files.isEmpty <;> simp [h]

/-- C10 counterexample: the claim that `team_members` is a sequence of
strings (not a single joined string) in each team's state type fails on
`DocWritingState`, whose declaration gives the field the plain string
shape, and whose authoring seed stores the ", "-joined member names. -/
theorem team_members_is_joined_string_in_docwriting :
    findField DocWritingFields "team_members" =
      some { name := "team_members", shape := .str, reducer := .replace } ∧
    FieldShape.str ≠ FieldShape.strList ∧
    (enter_chain_authoring "go" ["DocWriter", "NoteTaker"]).team_members =
      "DocWriter, NoteTaker" := by
  refine ⟨by decide, by decide, by decide⟩

/-- C10 amended: in `GenerationTeamState` the `team_members` field is
declared a sequence of strings with a replace (wholesale overwrite)
reducer; in `DocWritingState` it is declared a single string with a
replace reducer and the authoring `enter_chain` stores the ", "-joined
member names there; the top-level `State` declares no `team_members`
field. -/
theorem team_members_declarations :
    findField GenerationTeamFields "team_members" =
      some { name := "team_members", shape := .strList, reducer := .replace } ∧
    findField DocWritingFields "team_members" =
      some { name := "team_members", shape := .str, reducer := .replace } ∧
    findField TopLevelFields "team_members" = none ∧
    ∀ (message : String) (members : List String),
      (enter_chain_authoring message members).team_members =
        String.intercalate ", " members := by
  refine ⟨by decide, by decide, by decide, ?_⟩
  intro message members
  simp [enter_chain_authoring]

/-- C4: evaluation of `read_document` at the failing input: for the file
["a", "b", "c"] with explicit start line 1 and end line 3, the code
returns the slice from line 0 (the supplied start is reset to zero by
`if start is not None: start = 0`), not the specified `[1, 3)` slice the
interface `read(name, optional line range)` describes. -/
theorem read_document_start_reset :
    read_document ["a", "b", "c"] (some 1) (some 3) = "a\nb\nc" ∧
    read_document_spec ["a", "b", "c"] (some 1) (some 3) = "b\nc" ∧
    read_document ["a", "b", "c"] (some 1) (some 3) ≠
      read_document_spec ["a", "b", "c"] (some 1) (some 3) := by
  refine ⟨rfl, rfl, by decide⟩

/-- C6: mounting a compiled inner team graph as a node of the outer graph,
the adapter projects in by seeding the inner state with exactly the single
human message holding the content of the outer state's last message, and
projects out a partial update holding exactly one message — the last
message of the inner terminal state. -/
theorem team_node_boundary
    (run_chain : List BaseMessage → List BaseMessage) (s : State)
    (m : BaseMessage) (hm : s.messages.getLast? = some m)
    (inner_last : BaseMessage)
    (hinner :
      (run_chain (enter_chain m.content)).getLast? = some inner_last) :
    enter_chain m.content = [HumanMessage m.content] ∧
    team_node run_chain s = some [inner_last] := by
  constructor
  · rfl
  · simp [team_node, get_last_message, join_graph, hm, hinner]

/-- Witness for C6 at a concrete outer state and inner chain. -/
theorem team_node_boundary_witness :
    team_node
      (fun ms => ms ++ [{ author := some "Search", content := "found it" }])
      { messages := [HumanMessage "go"], next := "" } =
      some [{ author := some "Search", content := "found it" }] :=
  (team_node_boundary
    (fun ms => ms ++ [{ author := some "Search", content := "found it" }])
    { messages := [HumanMessage "go"], next := "" }
    (HumanMessage "go") rfl
    { author := some "Search", content := "found it" } (by decide)).2

/-- C3 counterexample: the claim that every worker capability catches a
failure of its underlying external call and returns a string fails on
`scrape_webpages`: with a loader whose call raises, the raised error
propagates out of the tool unchanged instead of being converted into a
returned text. -/
theorem scrape_webpages_propagates_failure :
    scrape_webpages (fun _ => Except.error "connection refused")
      (Sum.inr ["http://example.com"]) =
      Except.error "connection refused" := rfl

/-- C3 amended: once its driver construction has succeeded,
`google_translate` catches any failure of the in-`try` Selenium
interaction and returns it as an error-description string — but a failure
of the driver construction itself, which precedes the `try`, propagates
uncaught; and `scrape_webpages` wraps nothing: a loader failure
propagates as the raised exception, and every string argument fails with
an uncaught `NameError` because the module never imports `json`. -/
theorem capability_failure_handling :
    (∀ (δ : Type) (mkDriver : Except String δ)
       (fetch : δ → String → Except String String) (d : δ)
       (text e : String),
       mkDriver = .ok d → fetch d text = .error e →
       google_translate mkDriver fetch text =
         .ok ("An error occurred during translation with google: " ++ e)) ∧
    (∀ (δ : Type) (mkDriver : Except String δ)
       (fetch : δ → String → Except String String) (d : δ)
       (text t : String),
       mkDriver = .ok d → fetch d text = .ok t →
       google_translate mkDriver fetch text =
         .ok ("Translated text: " ++ t)) ∧
    (∀ (δ : Type) (fetch : δ → String → Except String String)
       (text e : String),
       google_translate (Except.error e) fetch text = .error e) ∧
    (∀ (load : List String → Except String (List Doc))
       (urls : List String) (e : String),
       load urls = .error e →
       scrape_webpages load (.inr urls) = .error e) ∧
    (∀ (load : List String → Except String (List Doc)) (s : String),
       scrape_webpages load (.inl s) =
         .error "NameError: name 'json' is not defined") := by
  refine ⟨?_, ?_, ?_, ?_, ?_⟩
  · intro δ mkDriver fetch d text e hd h
    simp [google_translate, hd, h]
  · intro δ mkDriver fetch d text t hd h
    simp [google_translate, hd, h]
  · intro δ fetch text e
    simp [google_translate]
  · intro load urls e h
    simp [scrape_webpages, h]
  · intro load s
    simp [scrape_webpages]

/-- Witness for C3's amended theorem at a concrete driver and fetch
function. -/
theorem capability_failure_handling_witness :
    google_translate (Except.ok ()) (fun _ _ => Except.error "timeout")
      "hello" =
      Except.ok
        ("An error occurred during translation with google: timeout") :=
  capability_failure_handling.1 Unit (Except.ok ())
    (fun _ _ => Except.error "timeout") () "hello" "timeout" rfl rfl

/-- C8: in each of the three compiled graphs every worker node's only
outgoing edge targets the supervisor, and in any graph of that shape a
one-hop destination of a worker is the supervisor and never another
worker: control returns to the supervisor between any two worker runs. -/
theorem worker_edges_return_to_supervisor :
    starTopology research_graph = true ∧
    starTopology authoring_graph = true ∧
    starTopology super_graph = true ∧
    (∀ (g : GraphSpec) (w t : String), starTopology g = true →
       w ∈ workers g → t ∈ outTargets g w →
       t = "supervisor" ∧ t ∉ workers g) := by
  refine ⟨by decide, by decide, by decide, ?_⟩
  intro g w t hstar hw ht
  have hall := (List.all_eq_true.mp hstar) w (by simpa [workers] using hw)
  have hout : outTargets g w = ["supervisor"] := by
    simpa using hall
  rw [hout] at ht
  have ht' : t = "supervisor" := by simpa using ht
  refine ⟨ht', ?_⟩
  intro hmem
  have := List.of_mem_filter (p := fun n => n ≠ "supervisor") hmem
  simp [ht'] at this

/-- Witness for C8's general part on the research graph's WebScraper
worker. -/
theorem worker_edges_return_to_supervisor_witness :
    ("supervisor" : String) = "supervisor" ∧
      "supervisor" ∉ workers research_graph :=
  worker_edges_return_to_supervisor.2.2.2 research_graph "WebScraper"
    "supervisor" (by decide) (by decide) (by decide)

/-- C2: a graph that compiles has every unconditional-edge target and
every conditional-mapping value resolving to a registered node or the
terminal sentinel; a duplicate node name, and likewise any dangling
destination, makes `compile` return a `CompileError` (so execution, which
consumes only compiled graphs, never starts); and the three graphs the
repository builds all compile. -/
theorem compile_validation :
    (∀ (g cg : GraphSpec), compile g = .ok cg → cg = g ∧
       ∀ t ∈ edgeTargets cg, resolves cg t = true) ∧
    (∀ g : GraphSpec, ¬ g.nodes.Nodup →
       compile g = .error .duplicateName) ∧
    (∀ g : GraphSpec, g.nodes.Nodup →
       g.edges.any (fun e => e.1 = START) = false →
       compile g = .error .missingEntry) ∧
    (∀ (g : GraphSpec) (t : String), t ∈ edgeTargets g →
       resolves g t = false → ∀ cg, compile g ≠ .ok cg) ∧
    compile research_graph = .ok research_graph ∧
    compile authoring_graph = .ok authoring_graph ∧
    compile super_graph = .ok super_graph := by
  refine ⟨?_, ?_, ?_, ?_, rfl, rfl, rfl⟩
  · intro g cg h
    unfold compile at h
    split_ifs at h with h1 h2 h3
    have hg : cg = g := by
      cases h; rfl
    subst hg
    refine ⟨rfl, ?_⟩
    intro t ht
    exact List.all_eq_true.mp h3 t ht
  · intro g h
    unfold compile
    rw [if_pos h]
  · intro g h1 h2
    unfold compile
    rw [if_neg (not_not_intro h1), if_pos (by simp [h2])]
  · intro g t ht hres cg hcompile
    unfold compile at hcompile
    split_ifs at hcompile with h1 h2 h3
    have := List.all_eq_true.mp h3 t ht
    rw [hres] at this
    exact Bool.false_ne_true this

/-- Witness for C2's dangling-destination part: a one-node graph with an
edge to the unregistered name "B" does not compile. -/
theorem compile_validation_witness :
    compile
      { nodes := ["A"], edges := [(START, "A"), ("A", "B")],
        cond_edges := [] } ≠
      Except.ok
        { nodes := ["A"], edges := [(START, "A"), ("A", "B")],
          cond_edges := [] } :=
  compile_validation.2.2.2.1
    { nodes := ["A"], edges := [(START, "A"), ("A", "B")],
      cond_edges := [] }
    "B" (by decide) (by decide)
    { nodes := ["A"], edges := [(START, "A"), ("A", "B")],
      cond_edges := [] }

/-- Shifting the in-range condition across the head of the insertion
list: the (i+1)-th insertion into an n0-line file is in range exactly when
the i-th insertion of the tail into the grown (n0+1)-line file is. -/
theorem okAt_cons (n0 : Nat) (p : Nat × String)
    (rest : List (Nat × String)) (i : Nat) :
    okAt n0 (p :: rest) (i + 1) ↔ okAt (n0 + 1) rest i := by
  unfold okAt keyAt
  rw [List.getD_cons_succ]
  constructor
  · intro h
    exact ⟨h.1, by omega⟩
  · intro h
    exact ⟨h.1, by omega⟩

/-- When every insertion is in range at its processing moment, the loop of
`edit_document` succeeds and returns every text inserted at its line
number. -/
theorem insertLoop_ok (ps : List (Nat × String)) :
    ∀ (lines : List String),
    (∀ i, i < ps.length → okAt lines.length ps i) →
    insertLoop lines ps = .ok (applyInserts lines ps) := by
  induction ps with
  | nil =>
      intro lines _
      rfl
  | cons p rest ih =>
      intro lines h
      have h0 := h 0 (by simp)
      have hcond : 1 ≤ p.1 ∧ p.1 ≤ lines.length + 1 := h0
      have hle : p.1 - 1 ≤ lines.length := by omega
      have hlen :
          (lines.insertIdx (p.1 - 1) (p.2 ++ "\n")).length =
            lines.length + 1 :=
        List.length_insertIdx (p.1 - 1) lines hle
      unfold insertLoop
      rw [if_pos hcond]
      have hnext :
          ∀ i, i < rest.length →
            okAt (lines.insertIdx (p.1 - 1) (p.2 ++ "\n")).length rest i := by
        intro i hi
        rw [hlen]
        exact (okAt_cons lines.length p rest i).mp
          (h (i + 1) (by simpa using Nat.succ_lt_succ hi))
      exact ih (lines.insertIdx (p.1 - 1) (p.2 ++ "\n")) hnext

/-- When the i-th insertion (in processing order) is the first one out of
range at its processing moment, the loop of `edit_document` aborts with
that insertion's line number. -/
theorem insertLoop_error (ps : List (Nat × String)) :
    ∀ (lines : List String) (i : Nat), i < ps.length →
    ¬ okAt lines.length ps i →
    (∀ j, j < i → okAt lines.length ps j) →
    insertLoop lines ps = .error (keyAt ps i) := by
  induction ps with
  | nil =>
      intro lines i hi
      simp at hi
  | cons p rest ih =>
      intro lines i hi hbad hok
      cases i with
      | zero =>
          have hcond : ¬ (1 ≤ p.1 ∧ p.1 ≤ lines.length + 1) := hbad
          unfold insertLoop
          rw [if_neg hcond]
          rfl
      | succ i' =>
          have h0 := hok 0 (Nat.succ_pos i')
          have hcond : 1 ≤ p.1 ∧ p.1 ≤ lines.length + 1 := h0
          have hle : p.1 - 1 ≤ lines.length := by omega
          have hlen :
              (lines.insertIdx (p.1 - 1) (p.2 ++ "\n")).length =
                lines.length + 1 :=
            List.length_insertIdx (p.1 - 1) lines hle
          unfold insertLoop
          rw [if_pos hcond]
          have hi' : i' < rest.length := by simpa using Nat.lt_of_succ_lt_succ hi
          have hbad' :
              ¬ okAt (lines.insertIdx (p.1 - 1) (p.2 ++ "\n")).length
                rest i' := by
            rw [hlen]
            intro hcontra
            exact hbad ((okAt_cons lines.length p rest i').mpr hcontra)
          have hok' :
              ∀ j, j < i' →
                okAt (lines.insertIdx (p.1 - 1) (p.2 ++ "\n")).length
                  rest j := by
            intro j hj
            rw [hlen]
            exact (okAt_cons lines.length p rest j).mp
              (hok (j + 1) (Nat.succ_lt_succ hj))
          exact ih (lines.insertIdx (p.1 - 1) (p.2 ++ "\n")) i' hi' hbad' hok'

/-- C5: `edit_document` processes the insertion map in ascending 1-indexed
line-number order; it returns the out-of-range error message exactly for
the first insertion whose line number falls outside `[1, current length +
1]` at the moment it is processed, leaving the file content unchanged; and
when every insertion is in range it inserts each text at its line number,
writes, and returns the success message naming the file. -/
theorem edit_document_range_and_content (file_name : String)
    (lines : List String) (inserts : List (Nat × String))
    (sorted : List (Nat × String))
    (hsorted : sorted = inserts.mergeSort (fun a b => a.1 ≤ b.1)) :
    List.Pairwise (fun a b : Nat × String => a.1 ≤ b.1) sorted ∧
    ((∀ i, i < sorted.length → okAt lines.length sorted i) →
       edit_document file_name lines inserts =
         ("Document edited and saved to " ++ file_name,
           applyInserts lines sorted)) ∧
    (∀ i, i < sorted.length → ¬ okAt lines.length sorted i →
       (∀ j, j < i → okAt lines.length sorted j) →
       edit_document file_name lines inserts =
         ("Error: Line number " ++ toString (keyAt sorted i) ++
           " is out of range.", lines)) := by
  refine ⟨?_, ?_, ?_⟩
  · subst hsorted
    have hp := @List.sorted_mergeSort (Nat × String)
      (fun a b => decide (a.1 ≤ b.1))
      (fun a b c h1 h2 => by
        simp only [decide_eq_true_eq] at h1 h2 ⊢
        omega)
      (fun a b => by
        simp only [Bool.or_eq_true, decide_eq_true_eq]
        omega)
      inserts
    exact hp.imp (fun h => by simpa using h)
  · intro h
    have hloop := insertLoop_ok sorted lines h
    unfold edit_document
    rw [← hsorted]
    simp only [hloop]
  · intro i hi hbad hok
    have hloop := insertLoop_error sorted lines i hi hbad hok
    unfold edit_document
    rw [← hsorted]
    simp only [hloop]

/-- Witness for C5: a concrete in-range edit inserts the text at line 1 of
a one-line file and reports success. -/
theorem edit_document_range_and_content_witness :
    edit_document "notes.txt" ["line1\n"] [(1, "hello")] =
      ("Document edited and saved to notes.txt", ["hello\n", "line1\n"]) := by
  have h := (edit_document_range_and_content "notes.txt" ["line1\n"]
    [(1, "hello")] [(1, "hello")]
    (List.mergeSort_singleton (1, "hello")).symm).2.1
    (fun i hi => by
      simp at hi
      subst hi
      decide)
  simpa [applyInserts] using h

/-- The executor fails with the step-budget error exactly when the hop
sequence does not reach the terminal sentinel within the remaining budget
`k = limit - counter`. -/
theorem executeFrom_recLimit_iff {σ : Type}
    (step : String → σ → String × σ) (limit : Nat) :
    ∀ (k counter : Nat), counter + k = limit →
    ∀ (node : String) (s : σ),
    ((∃ s', executeFrom step limit node s counter =
        ExecResult.recursionLimitExceeded s') ↔
      reachesWithin step node s k = false) := by
  intro k
  induction k with
  | zero =>
      intro counter hc node s
      rw [executeFrom]
      by_cases hnode : node = END
      · simp only [if_pos hnode]
        constructor
        · rintro ⟨s', h⟩
          cases h
        · intro hr
          simp [reachesWithin, hnode] at hr
      · have hlt : limit < counter + 1 := by omega
        simp only [if_neg hnode, if_pos hlt]
        constructor
        · intro _
          simp [reachesWithin, hnode]
        · intro _
          exact ⟨(step node s).2, rfl⟩
  | succ k' ih =>
      intro counter hc node s
      rw [executeFrom]
      by_cases hnode : node = END
      · simp only [if_pos hnode]
        constructor
        · rintro ⟨s', h⟩
          cases h
        · intro hr
          simp [reachesWithin, hnode] at hr
      · have hlt : ¬ limit < counter + 1 := by omega
        simp only [if_neg hnode, if_neg hlt]
        rw [ih (counter + 1) (by omega) (step node s).1 (step node s).2]
        simp [reachesWithin, hnode]

/-- C1: the top-level run's configured step limit is 150; an execution
halts with `recursionLimitExceeded` exactly when the hop sequence does not
reach the terminal sentinel within `limit` hops — never earlier and never
later; and each non-terminal hop within budget advances the step counter
by exactly one. -/
theorem step_budget_halting :
    top_level_recursion_limit = 150 ∧
    (∀ (σ : Type) (step : String → σ → String × σ) (limit : Nat)
       (entry : String) (s : σ),
       ((∃ s', execute step limit entry s =
           ExecResult.recursionLimitExceeded s') ↔
         reachesWithin step entry s limit = false)) ∧
    (∀ (σ : Type) (step : String → σ → String × σ) (limit counter : Nat)
       (node : String) (s : σ), node ≠ END → counter + 1 ≤ limit →
       executeFrom step limit node s counter =
         executeFrom step limit (step node s).1 (step node s).2
           (counter + 1)) := by
  refine ⟨rfl, ?_, ?_⟩
  · intro σ step limit entry s
    exact executeFrom_recLimit_iff step limit limit 0 (by omega) entry s
  · intro σ step limit counter node s hnode hle
    rw [executeFrom]
    have hlt : ¬ limit < counter + 1 := by omega
    simp only [if_neg hnode, if_neg hlt]

/-- Witness for C1's one-hop advance on a concrete looping step
function. -/
theorem step_budget_halting_witness :
    executeFrom (fun _ (n : Nat) => ("loop", n + 1)) 2 "A" 5 0 =
      executeFrom (fun _ (n : Nat) => ("loop", n + 1)) 2 "loop" 6 1 :=
  step_budget_halting.2.2 Nat (fun _ n => ("loop", n + 1)) 2 0 "A" 5
    (by decide) (by decide)

end TextWriter
